import Mathlib

/-!
Shallow embedding of the multiplayer party-game server core:
`src/example_multi_player_game/src/server/GameState.js`, the `GameRoom`
class (embedded at the end of `src/SYNC_ANALYSIS.md`), and the socket
server `src/unnamed/part_001` (`index.js`: room directory, handlers,
round timeline).

Modelling conventions:
* JS `Map` objects become association lists with unique keys;
  `Map.set` replaces in place (preserving order) or appends,
  `Map.delete` removes the keyed entry, `Map.get` is `mapGet`.
* JS numbers used as coordinates/scores become `Int`; the comparison
  `Math.sqrt(dx^2+dy^2) < 30` is embedded as `dx^2+dy^2 < 900`, which is
  equivalent for real arguments since both sides are nonnegative.
* Calls to `Math.random()` / `Date.now()` / `Math.cos` / `Math.sin`
  become explicit oracle parameters, so every definition is a pure
  function of its inputs.
* `setTimeout` nesting in `startGame` is flattened to a list of
  (absolute delay from game start, action) pairs; the callbacks of the
  source only emit transport events (and, for `gameEnd`, call
  `room.endGame()`), which the `TimelineAction` interpreter reproduces.
-/

namespace PartyGame

/-- The three game modes of `GameState.currentMode`. -/
inductive Mode
  | race
  | build
  | battle
deriving DecidableEq

/-- Player teams, as assigned by `GameRoom.assignTeam`. -/
inductive Team
  | red
  | blue
deriving DecidableEq

/-- Entries of `player.powerUps` (see `GameState.activateBoost`). -/
structure PowerUp where
  ptype : String
  endTime : Nat
deriving DecidableEq

/-- The player record created by `GameRoom.addPlayer`, with the `vx`/`vy`
fields that `GameState.initializePositions` later adds (they are zero
until then, matching the source where they are simply absent). -/
structure PlayerState where
  id : String
  username : String
  team : Team
  score : Int
  x : Int
  y : Int
  vx : Int
  vy : Int
  health : Int
  powerUps : List PowerUp
deriving DecidableEq

/-- A coin of `GameState.generateCoins`. -/
structure Coin where
  cid : Nat
  x : Int
  y : Int
  collected : Bool
deriving DecidableEq

/-- A block pushed by `GameState.placeBlock`. -/
structure Block where
  x : Int
  y : Int
  btype : String
  owner : String
deriving DecidableEq

/-- A projectile of `GameState.createProjectile`. -/
structure Projectile where
  projId : Nat
  owner : String
  team : Team
  x : Int
  y : Int
  angle : Int
  speed : Int
  damage : Int
deriving DecidableEq

/-- `this.teamScores = { red: 0, blue: 0 }`. -/
structure TeamScores where
  red : Int
  blue : Int
deriving DecidableEq

/-- `teamScores[t] += n` for `t` the projectile team. -/
def TeamScores.add (ts : TeamScores) (t : Team) (n : Int) : TeamScores :=
  match t with
  | Team.red => { ts with red := ts.red + n }
  | Team.blue => { ts with blue := ts.blue + n }

/-- JS `Map.get`: lookup of the unique entry with the given key. -/
def mapGet {α : Type} : List (String × α) → String → Option α
  | [], _ => none
  | e :: rest, k => if e.1 = k then some e.2 else mapGet rest k

/-- JS `Map.set`: replace the entry in place if the key exists, else
append a new entry (insertion order is preserved, as in JS). -/
def mapSet {α : Type} : List (String × α) → String → α → List (String × α)
  | [], k, v => [(k, v)]
  | e :: rest, k, v => if e.1 = k then (k, v) :: rest else e :: mapSet rest k v

/-- JS `Map.delete`: remove the entry with the given key (keys are
unique in a JS `Map`, so filtering removes exactly that entry). -/
def mapDelete {α : Type} (l : List (String × α)) (k : String) : List (String × α) :=
  l.filter (fun e => e.1 ≠ k)

/-- The server-side game state (`GameState` constructor fields; the
unused `this.objects = []` field is omitted). -/
structure GameState where
  players : List (String × PlayerState)
  currentMode : Mode
  teamScores : TeamScores
  coins : List Coin
  blocks : List Block
  projectiles : List Projectile
deriving DecidableEq

/-- `GameState.generateCoins`: 20 coins, ids 0..19, positions drawn from
the `Math.random()` oracle `coinPos`, all uncollected. -/
def generateCoins (coinPos : Nat → Int × Int) : List Coin :=
  (List.range 20).map fun i => ⟨i, (coinPos i).1, (coinPos i).2, false⟩

/-- `GameState.initializePositions`: grid positions by join index,
zero velocities. -/
def initPositions (players : List (String × PlayerState)) :
    List (String × PlayerState) :=
  players.enum.map fun e =>
    (e.2.1, { e.2.2 with
      x := 100 + ((e.1 % 4 : Nat) : Int) * 150
      y := 100 + ((e.1 / 4 : Nat) : Int) * 100
      vx := 0
      vy := 0 })

/-- The `GameState` constructor: copies the room's player map, starts in
`race` mode with zero team scores, generated coins, no blocks and no
projectiles, then initializes positions. -/
def GameState.make (players : List (String × PlayerState))
    (coinPos : Nat → Int × Int) : GameState :=
  { players := initPositions players
    currentMode := Mode.race
    teamScores := ⟨0, 0⟩
    coins := generateCoins coinPos
    blocks := []
    projectiles := [] }

/-- Squared Euclidean distance; `sqrt d < 30` in the source becomes
`d < 900` here. -/
def distSq (ax ay bx by_ : Int) : Int :=
  (ax - bx) ^ 2 + (ay - by_) ^ 2

/-- The result object of `GameState.collectCoin`. -/
structure CollectEvent where
  playerId : String
  coinId : Nat
  score : Int
deriving DecidableEq

/-- `GameState.collectCoin` (with the `handleAction` guard that returns
`null` for an unknown player folded in): if `coins[coinId]` exists and
is uncollected, mark it collected, add 10 to the player's score and
return the event; otherwise return nothing and change nothing. -/
def GameState.collectCoin (gs : GameState) (playerId : String) (coinId : Nat) :
    GameState × Option CollectEvent :=
  match mapGet gs.players playerId with
  | none => (gs, none)
  | some p =>
    match gs.coins[coinId]? with
    | none => (gs, none)
    | some c =>
      if c.collected then (gs, none)
      else
        ({ gs with
            coins := gs.coins.set coinId { c with collected := true }
            players := mapSet gs.players playerId { p with score := p.score + 10 } },
          some ⟨playerId, coinId, p.score + 10⟩)

/-- The result object of `GameState.placeBlock`. -/
structure PlaceEvent where
  playerId : String
  x : Int
  y : Int
  btype : String
deriving DecidableEq

/-- `GameState.placeBlock` (with the `handleAction` player guard folded
in): unconditionally pushes the block and adds a flat 5 to the player's
score — the source has no occupancy check and no type-dependent reward. -/
def GameState.placeBlock (gs : GameState) (playerId : String)
    (x y : Int) (btype : String) : GameState × Option PlaceEvent :=
  match mapGet gs.players playerId with
  | none => (gs, none)
  | some p =>
    ({ gs with
        blocks := gs.blocks ++ [⟨x, y, btype, playerId⟩]
        players := mapSet gs.players playerId { p with score := p.score + 5 } },
      some ⟨playerId, x, y, btype⟩)

/-- `GameState.createProjectile` (player guard folded in); `Date.now()`
becomes the oracle argument `nowId`. -/
def GameState.createProjectile (gs : GameState) (playerId : String)
    (angle x y : Int) (nowId : Nat) : GameState × Option Projectile :=
  match mapGet gs.players playerId with
  | none => (gs, none)
  | some p =>
    let proj : Projectile := ⟨nowId, p.id, p.team, x, y, angle, 10, 25⟩
    ({ gs with projectiles := gs.projectiles ++ [proj] }, some proj)

/-- The payload of a `playerInput` event: each field overwrites the
player's field when present (`input.x !== undefined`). -/
structure PlayerInput where
  x : Option Int
  y : Option Int
  vx : Option Int
  vy : Option Int
deriving DecidableEq

/-- The field-overwrite part of `GameState.updatePlayerInput`. -/
def applyInput (p : PlayerState) (inp : PlayerInput) : PlayerState :=
  { p with
    x := inp.x.getD p.x
    y := inp.y.getD p.y
    vx := inp.vx.getD p.vx
    vy := inp.vy.getD p.vy }

/-- `GameState.checkCoinCollisions`: walk the coin list in order; every
uncollected coin within distance 30 of the player becomes collected and
adds 10 to the player's score. Returns the updated coins and player. -/
def checkCoinCollisions : List Coin → PlayerState → List Coin × PlayerState
  | [], p => ([], p)
  | c :: rest, p =>
    if c.collected = false ∧ distSq p.x p.y c.x c.y < 900 then
      let r := checkCoinCollisions rest { p with score := p.score + 10 }
      ({ c with collected := true } :: r.1, r.2)
    else
      let r := checkCoinCollisions rest p
      (c :: r.1, r.2)

/-- `GameState.updatePlayerInput`: overwrite position/velocity from the
input, then, only in `race` mode, run coin-collision collection. -/
def GameState.updatePlayerInput (gs : GameState) (playerId : String)
    (inp : PlayerInput) : GameState :=
  match mapGet gs.players playerId with
  | none => gs
  | some p =>
    let p1 := applyInput p inp
    if gs.currentMode = Mode.race then
      let r := checkCoinCollisions gs.coins p1
      { gs with coins := r.1, players := mapSet gs.players playerId r.2 }
    else
      { gs with players := mapSet gs.players playerId p1 }

/-- `GameState.setMode`: switch the mode tag and reset the mode-specific
collection (fresh coins for race, empty blocks for build, empty
projectiles plus health reset for battle). -/
def GameState.setMode (gs : GameState) (m : Mode)
    (coinPos : Nat → Int × Int) : GameState :=
  match m with
  | Mode.race => { gs with currentMode := m, coins := generateCoins coinPos }
  | Mode.build => { gs with currentMode := m, blocks := [] }
  | Mode.battle =>
    { gs with
      currentMode := m
      projectiles := []
      players := gs.players.map fun e => (e.1, { e.2 with health := 100 }) }

/-- Public player fields of `GameState.getState`. -/
structure PublicPlayer where
  id : String
  username : String
  x : Int
  y : Int
  score : Int
  health : Int
  team : Team
deriving DecidableEq

/-- The mode-dependent `objects` field of a snapshot. -/
inductive SnapObjects
  | coins (l : List Coin)
  | blocks (l : List Block)
  | projectiles (l : List Projectile)
deriving DecidableEq

/-- The broadcast snapshot returned by `GameState.getState`. -/
structure Snapshot where
  players : List PublicPlayer
  objects : SnapObjects
  teamScores : TeamScores
  mode : Mode
deriving DecidableEq

/-- `GameState.getState`: public player fields, the current mode's
object collection, team scores and the mode tag. -/
def GameState.getState (gs : GameState) : Snapshot :=
  { players := gs.players.map fun e =>
      ⟨e.2.id, e.2.username, e.2.x, e.2.y, e.2.score, e.2.health, e.2.team⟩
    objects :=
      match gs.currentMode with
      | Mode.race => SnapObjects.coins gs.coins
      | Mode.build => SnapObjects.blocks gs.blocks
      | Mode.battle => SnapObjects.projectiles gs.projectiles
    teamScores := gs.teamScores
    mode := gs.currentMode }

/-- The per-player hit test of `GameState.update` for one (already
moved) projectile, walking the player map in order. A player is hit
when they are not the owner, are on the other team and are within
distance 30; a hit subtracts the damage, clamps health at zero and, when
the resulting health is `≤ 0`, adds 10 to the projectile team's score
(`teamScores[proj.team === 'red' ? 'red' : 'blue'] += 10` adds to the
projectile's own team). Returns updated players, scores and whether any
player was hit. -/
def hitPlayers (proj : Projectile) :
    List (String × PlayerState) → TeamScores →
    List (String × PlayerState) × TeamScores × Bool
  | [], ts => ([], ts, false)
  | e :: rest, ts =>
    if e.2.id ≠ proj.owner ∧ e.2.team ≠ proj.team ∧
        distSq e.2.x e.2.y proj.x proj.y < 900 then
      let h1 := e.2.health - proj.damage
      let p1 := if h1 ≤ 0 then { e.2 with health := 0 } else { e.2 with health := h1 }
      let ts1 := if h1 ≤ 0 then ts.add proj.team 10 else ts
      let r := hitPlayers proj rest ts1
      ((e.1, p1) :: r.1, r.2.1, true)
    else
      let r := hitPlayers proj rest ts
      ((e.1, e.2) :: r.1, r.2.1, r.2.2)

/-- The projectile `filter` of `GameState.update`: each projectile moves
by `cos(angle)*speed` / `sin(angle)*speed` (trig via the oracles `cosF`
and `sinF`), then runs the hit test, and survives only when it hit no
one and stays strictly inside the 0..1000 × 0..800 bounds. -/
def stepProjectiles (cosF sinF : Int → Int) :
    List Projectile → List (String × PlayerState) → TeamScores →
    List Projectile × List (String × PlayerState) × TeamScores
  | [], ps, ts => ([], ps, ts)
  | proj :: rest, ps, ts =>
    let proj1 := { proj with
      x := proj.x + cosF proj.angle * proj.speed
      y := proj.y + sinF proj.angle * proj.speed }
    let hr := hitPlayers proj1 ps ts
    let keep := hr.2.2 = false ∧ proj1.x > 0 ∧ proj1.x < 1000 ∧
      proj1.y > 0 ∧ proj1.y < 800
    let r := stepProjectiles cosF sinF rest hr.1 hr.2.1
    (if keep then proj1 :: r.1 else r.1, r.2.1, r.2.2)

/-- The power-up expiry pass of `GameState.update`. -/
def filterPowerUps (now : Nat) (ps : List (String × PlayerState)) :
    List (String × PlayerState) :=
  ps.map fun e => (e.1, { e.2 with powerUps := e.2.powerUps.filter (fun q => q.endTime > now) })

/-- `GameState.update`: advance and resolve all projectiles, then drop
expired power-ups (`Date.now()` becomes the `now` argument). -/
def GameState.update (cosF sinF : Int → Int) (now : Nat) (gs : GameState) :
    GameState :=
  let r := stepProjectiles cosF sinF gs.projectiles gs.players gs.teamScores
  { gs with
    projectiles := r.1
    players := filterPowerUps now r.2.1
    teamScores := r.2.2 }

/-- The `GameRoom` class (source embedded in `src/SYNC_ANALYSIS.md`). -/
structure GameRoom where
  code : String
  isPrivate : Bool
  players : List (String × PlayerState)
  gameState : Option GameState
  gameStarted : Bool
  currentRound : Nat
  maxPlayers : Nat
deriving DecidableEq

/-- The `GameRoom` constructor: empty player map, no game state, not
started, round 0, capacity 16. -/
def GameRoom.make (code : String) (isPrivate : Bool) : GameRoom :=
  ⟨code, isPrivate, [], none, false, 0, 16⟩

/-- Number of current members of team `t` (the red/blue tally that
`GameRoom.assignTeam` recomputes with `forEach` on every call). -/
def teamCount (players : List (String × PlayerState)) (t : Team) : Nat :=
  (players.filter fun e => e.2.team = t).length

/-- `GameRoom.assignTeam`: the team with fewer or equal current members,
ties going to red (`teams.red <= teams.blue ? 'red' : 'blue'`). -/
def GameRoom.assignTeam (room : GameRoom) : Team :=
  if teamCount room.players Team.red ≤ teamCount room.players Team.blue
  then Team.red else Team.blue

/-- `GameRoom.addPlayer`: throws `'Room is full'` when
`players.size >= maxPlayers`; otherwise builds the player record (team
from `assignTeam` on the current membership, score 0, random position
via the oracle `rx`,`ry`, health 100, no power-ups; an empty username
falls back to a random guest name) and `Map.set`s it. -/
def GameRoom.addPlayer (room : GameRoom) (id username : String)
    (rx ry : Int) (guestNum : Nat) : Except String (GameRoom × PlayerState) :=
  if room.players.length ≥ room.maxPlayers then
    Except.error "Room is full"
  else
    let name := if username = "" then "Guest" ++ toString guestNum else username
    let p : PlayerState :=
      ⟨id, name, room.assignTeam, 0, rx, ry, 0, 0, 100, []⟩
    Except.ok ({ room with players := mapSet room.players id p }, p)

/-- `GameRoom.removePlayer`: delete from the room's map and, when a game
state is active, from the game state's map as well. -/
def GameRoom.removePlayer (room : GameRoom) (id : String) : GameRoom :=
  { room with
    players := mapDelete room.players id
    gameState := room.gameState.map fun gs =>
      { gs with players := mapDelete gs.players id } }

/-- `GameRoom.startGame`: no-op when already started, else mark started,
build a fresh `GameState` from the roster and set round 1. -/
def GameRoom.startGame (room : GameRoom) (coinPos : Nat → Int × Int) : GameRoom :=
  if room.gameStarted then room
  else
    { room with
      gameStarted := true
      gameState := some (GameState.make room.players coinPos)
      currentRound := 1 }

/-- `GameRoom.endGame`: clear the started flag, the game state and the
round counter. -/
def GameRoom.endGame (room : GameRoom) : GameRoom :=
  { room with gameStarted := false, gameState := none, currentRound := 0 }

/-- `room.playerCount` (the `players.size` getter). -/
def GameRoom.playerCount (room : GameRoom) : Nat :=
  room.players.length

/-! ### The socket server (`src/unnamed/part_001`) -/

/-- The character set of `generateRoomCode`. -/
def roomCodeChars : List Char :=
  "ABCDEFGHIJKLMNOPQRSTUVWXYZ0123456789".data

theorem roomCodeChars_length : roomCodeChars.length = 36 := rfl

/-- `generateRoomCode`: six draws from the `Math.random()` oracle `r`,
each picking one character from `roomCodeChars`
(`Math.floor(Math.random()*chars.length)` yields an index in 0..35). -/
def generateRoomCode (r : Fin 6 → Fin 36) : List Char :=
  (List.finRange 6).map fun i =>
    roomCodeChars.get ⟨(r i).val, by rw [roomCodeChars_length]; exact (r i).isLt⟩

/-- The generated room code as a string. -/
def roomCodeString (r : Fin 6 → Fin 36) : String :=
  ⟨generateRoomCode r⟩

/-- The `createRoom` handler: generate a code (no uniqueness check
against the live `rooms` map), build a private room, add the creator,
then `rooms.set(roomCode, room)` — which silently replaces any live
room that already has that code. Returns the updated directory and the
code given back in the ack. -/
def createRoomHandler (rooms : List (String × GameRoom)) (r : Fin 6 → Fin 36)
    (socketId username : String) (rx ry : Int) (guestNum : Nat) :
    List (String × GameRoom) × String :=
  let roomCode := roomCodeString r
  let room := GameRoom.make roomCode true
  match room.addPlayer socketId username rx ry guestNum with
  | Except.ok (room1, _) => (mapSet rooms roomCode room1, roomCode)
  | Except.error _ => (rooms, roomCode)

/-- One timed callback of the `startGame` round timeline. The source
callbacks only `io.emit` transport events; the `gameEnd` callback
additionally calls `room.endGame()`. None of them touches
`gameState.currentMode`. -/
inductive TimelineAction
  | emitRoundStart (m : Mode) (duration : Nat)
  | emitRoundEnd
  | emitGameEnd
deriving DecidableEq

/-- The `startGame` timeline, flattened to absolute offsets (ms) from
game start: `roundStart(race)` immediately; `setTimeout(120000)` emits
`roundEnd` then a nested `setTimeout(3000)` emits `roundStart(build)`;
`setTimeout(303000)` emits `roundEnd` then `+3000` emits
`roundStart(battle)`; `setTimeout(456000)` emits `gameEnd`. -/
def startGameSchedule : List (Nat × TimelineAction) :=
  [(0, TimelineAction.emitRoundStart Mode.race 120),
   (120000, TimelineAction.emitRoundEnd),
   (120000 + 3000, TimelineAction.emitRoundStart Mode.build 180),
   (303000, TimelineAction.emitRoundEnd),
   (303000 + 3000, TimelineAction.emitRoundStart Mode.battle 150),
   (456000, TimelineAction.emitGameEnd)]

/-- Effect of a timeline callback on the room: the emit-only callbacks
leave the room untouched (in particular no `setMode` call is made at
any boundary); the `gameEnd` callback runs `room.endGame()`. -/
def applyTimelineAction (room : GameRoom) : TimelineAction → GameRoom
  | TimelineAction.emitRoundStart _ _ => room
  | TimelineAction.emitRoundEnd => room
  | TimelineAction.emitGameEnd => room.endGame

/-- The room after all timeline callbacks scheduled at or before `t`
have fired, in schedule order. -/
def runScheduleUpTo (room : GameRoom) (t : Nat) : GameRoom :=
  ((startGameSchedule.filter fun e => e.1 ≤ t).map (fun e => e.2)).foldl
    applyTimelineAction room

/-- Whether a schedule entry is a `roundStart` emission. -/
def isRoundStart : TimelineAction → Bool
  | TimelineAction.emitRoundStart _ _ => true
  | _ => false

/-- Whether a schedule entry is the `gameEnd` emission. -/
def isGameEnd : TimelineAction → Bool
  | TimelineAction.emitGameEnd => true
  | _ => false

/-- Process-wide server state: the `rooms` map, the `playerRooms`
socket-to-room map, and the round-timeline timeouts still pending
(room code, absolute offset, action). The source never calls
`clearTimeout`, so only an explicit model of cancellation could remove
entries. -/
structure ServerState where
  rooms : List (String × GameRoom)
  playerRooms : List (String × String)
  pendingTimeouts : List (String × Nat × TimelineAction)
deriving DecidableEq

/-- The `disconnect` handler: look up the socket's room; remove the
player; when the room became empty, delete it from `rooms`; finally drop
the socket from `playerRooms`. No timer is cancelled here (the source
contains no `clearTimeout`), so `pendingTimeouts` is untouched. -/
def disconnectHandler (st : ServerState) (socketId : String) : ServerState :=
  match mapGet st.playerRooms socketId with
  | none => st
  | some roomCode =>
    match mapGet st.rooms roomCode with
    | none => { st with playerRooms := mapDelete st.playerRooms socketId }
    | some room =>
      let room1 := room.removePlayer socketId
      let rooms1 :=
        if room1.playerCount = 0 then mapDelete st.rooms roomCode
        else mapSet st.rooms roomCode room1
      { st with
        rooms := rooms1
        playerRooms := mapDelete st.playerRooms socketId }

/-- One tick of the 30 Hz `gameLoop` interval for a started room: if the
room code is no longer in `rooms`, clear the interval and emit nothing
(`clearInterval(gameLoop); return`); otherwise emit the snapshot of the
closure-captured room's game state. Result: (emitted snapshot, whether
the interval stays alive). -/
def gameLoopTick (rooms : List (String × GameRoom)) (roomCode : String)
    (room : GameRoom) : Option Snapshot × Bool :=
  if (mapGet rooms roomCode).isSome then
    (room.gameState.map GameState.getState, true)
  else
    (none, false)

/-- One join request: connection id, username, and the position/guest
oracles consumed by `addPlayer`. -/
structure JoinReq where
  id : String
  username : String
  rx : Int
  ry : Int
  guestNum : Nat
deriving DecidableEq

/-- A sequence of `addPlayer` calls on a room; a call that throws
(`Room is full`) leaves the room unchanged, as the exception is caught
at the handler boundary before any mutation. -/
def joinFold (room : GameRoom) : List JoinReq → GameRoom
  | [] => room
  | j :: rest =>
    match room.addPlayer j.id j.username j.rx j.ry j.guestNum with
    | Except.ok (room1, _) => joinFold room1 rest
    | Except.error _ => joinFold room rest

/-! ### Map lemmas -/

theorem mapGet_mapSet_self {α : Type} (l : List (String × α)) (k : String) (v : α) :
    mapGet (mapSet l k v) k = some v := by
  induction l with
  | nil => simp [mapGet, mapSet]
  | cons e rest ih =>
    by_cases h : e.1 = k
    · simp [mapGet, mapSet, h]
    · simp [mapGet, mapSet, h, ih]

theorem mapGet_mapSet_ne {α : Type} (l : List (String × α)) (k k2 : String) (v : α)
    (hne : k2 ≠ k) : mapGet (mapSet l k v) k2 = mapGet l k2 := by
  have hkk : ¬k = k2 := fun h => hne h.symm
  induction l with
  | nil => simp [mapGet, mapSet, hkk]
  | cons e rest ih =>
    by_cases h : e.1 = k
    · have he2 : ¬e.1 = k2 := by rw [h]; exact hkk
      simp [mapGet, mapSet, h, hkk, he2]
    · by_cases h2 : e.1 = k2 <;> simp [mapGet, mapSet, h, h2, hne, ih]

theorem mapSet_length_le {α : Type} (l : List (String × α)) (k : String) (v : α) :
    (mapSet l k v).length ≤ l.length + 1 := by
  induction l with
  | nil => simp [mapSet]
  | cons e rest ih =>
    by_cases h : e.1 = k <;> (simp [mapSet, h]; try omega)

theorem mapSet_of_get_none {α : Type} (l : List (String × α)) (k : String) (v : α)
    (h : mapGet l k = none) : mapSet l k v = l ++ [(k, v)] := by
  induction l with
  | nil => simp [mapSet]
  | cons e rest ih =>
    by_cases he : e.1 = k
    · simp [mapGet, he] at h
    · simp [mapGet, he] at h
      simp [mapSet, he, ih h]

theorem mapGet_mapDelete_self {α : Type} (l : List (String × α)) (k : String) :
    mapGet (mapDelete l k) k = none := by
  induction l with
  | nil => simp [mapGet, mapDelete]
  | cons e rest ih =>
    by_cases h : e.1 = k
    · simpa [mapDelete, h] using ih
    · simpa [mapDelete, List.filter_cons, h, mapGet] using ih

/-! ### C5 — coin collection is idempotent -/

/-- C5: `collectCoin` on an existing uncollected coin marks it collected,
adds exactly 10 to the player's score and returns the collection event
(part 1); it returns nothing and changes no state when the player is
unknown (part 2) or when the referenced coin is missing or already
collected (part 3); consequently a second `collectCoin` on the same coin
id is a complete no-op, so the score is incremented exactly once
(part 4). -/
theorem collectCoin_idempotent :
    (∀ (gs : GameState) (pid : String) (cid : Nat) (p : PlayerState) (c : Coin),
      mapGet gs.players pid = some p →
      gs.coins[cid]? = some c → c.collected = false →
      gs.collectCoin pid cid =
        ({ gs with
            coins := gs.coins.set cid { c with collected := true }
            players := mapSet gs.players pid { p with score := p.score + 10 } },
          some ⟨pid, cid, p.score + 10⟩)) ∧
    (∀ (gs : GameState) (pid : String) (cid : Nat),
      mapGet gs.players pid = none → gs.collectCoin pid cid = (gs, none)) ∧
    (∀ (gs : GameState) (pid : String) (cid : Nat),
      (∀ c, gs.coins[cid]? = some c → c.collected = true) →
      gs.collectCoin pid cid = (gs, none)) ∧
    (∀ (gs : GameState) (pid : String) (cid : Nat) (p : PlayerState) (c : Coin),
      mapGet gs.players pid = some p →
      gs.coins[cid]? = some c → c.collected = false →
      mapGet (gs.collectCoin pid cid).1.players pid = some { p with score := p.score + 10 } ∧
      (gs.collectCoin pid cid).1.collectCoin pid cid = ((gs.collectCoin pid cid).1, none)) := by
  have hfst : ∀ (gs : GameState) (pid : String) (cid : Nat) (p : PlayerState) (c : Coin),
      mapGet gs.players pid = some p →
      gs.coins[cid]? = some c → c.collected = false →
      gs.collectCoin pid cid =
        ({ gs with
            coins := gs.coins.set cid { c with collected := true }
            players := mapSet gs.players pid { p with score := p.score + 10 } },
          some ⟨pid, cid, p.score + 10⟩) := by
    intro gs pid cid p c hp hc hunc
    simp [GameState.collectCoin, hp, hc, hunc]
  refine ⟨hfst, ?_, ?_, ?_⟩
  · intro gs pid cid hp
    simp [GameState.collectCoin, hp]
  · intro gs pid cid hcol
    cases hp : mapGet gs.players pid with
    | none => simp [GameState.collectCoin, hp]
    | some p =>
      cases hc : gs.coins[cid]? with
      | none => simp [GameState.collectCoin, hp, hc]
      | some c => simp [GameState.collectCoin, hp, hc, hcol c hc]
  · intro gs pid cid p c hp hc hunc
    have h1 := hfst gs pid cid p c hp hc hunc
    have hlt : cid < gs.coins.length := by
      by_contra hge
      rw [List.getElem?_eq_none (by omega)] at hc
      exact Option.noConfusion hc
    constructor
    · rw [h1]
      exact mapGet_mapSet_self ..
    · rw [h1]
      have hc2 : (gs.coins.set cid { c with collected := true })[cid]? =
          some { c with collected := true } :=
        List.getElem?_set_eq_of_lt _ (by simpa using hlt)
      cases hp2 : mapGet (mapSet gs.players pid { p with score := p.score + 10 }) pid with
      | none => simp [GameState.collectCoin, hp2]
      | some q => simp [GameState.collectCoin, hp2, hc2]

/-- Concrete state for the C5 witness: one player `s1` with score 0, one
uncollected coin with id 0. -/
def gsC5 : GameState :=
  { players := [("s1", ⟨"s1", "alice", Team.red, 0, 0, 0, 0, 0, 100, []⟩)]
    currentMode := Mode.race
    teamScores := ⟨0, 0⟩
    coins := [⟨0, 5, 5, false⟩]
    blocks := []
    projectiles := [] }

/-- Witness for C5 at a concrete state: the first collection yields
score 10, the second is a no-op. -/
theorem collectCoin_idempotent_witness :
    mapGet (gsC5.collectCoin "s1" 0).1.players "s1" =
      some ⟨"s1", "alice", Team.red, 10, 0, 0, 0, 0, 100, []⟩ ∧
    (gsC5.collectCoin "s1" 0).1.collectCoin "s1" 0 =
      ((gsC5.collectCoin "s1" 0).1, none) := by
  have h := collectCoin_idempotent.2.2.2 gsC5 "s1" 0
    ⟨"s1", "alice", Team.red, 0, 0, 0, 0, 0, 100, []⟩ ⟨0, 5, 5, false⟩
    (by decide) (by decide) (by decide)
  exact ⟨h.1, h.2⟩

/-! ### C2 — block placement -/

/-- Concrete state for the C2 counterexample: player `s1` with score 0,
and cell (1,2) already occupied by a wall owned by `s2`. -/
def gsC2 : GameState :=
  { players := [("s1", ⟨"s1", "alice", Team.red, 0, 0, 0, 0, 0, 100, []⟩),
                ("s2", ⟨"s2", "bob", Team.blue, 0, 0, 0, 0, 0, 100, []⟩)]
    currentMode := Mode.build
    teamScores := ⟨0, 0⟩
    coins := []
    blocks := [⟨1, 2, "wall", "s2"⟩]
    projectiles := [] }

/-- C2 counterexample: placing a block at the already-occupied cell
(1,2) is not rejected — the second block is inserted alongside the
first (two blocks at the same cell) and the placer's score still rises
(by the flat 5, not the claimed type-dependent reward: the placed type
is `trap`, whose claimed reward is 10). This refutes both the
"occupied cells silently reject" and the "type-dependent reward"
parts of the claim. -/
theorem placeBlock_occupied_counterexample :
    (gsC2.placeBlock "s1" 1 2 "trap").1.blocks =
      [⟨1, 2, "wall", "s2"⟩, ⟨1, 2, "trap", "s1"⟩] ∧
    mapGet (gsC2.placeBlock "s1" 1 2 "trap").1.players "s1" =
      some ⟨"s1", "alice", Team.red, 5, 0, 0, 0, 0, 100, []⟩ ∧
    (gsC2.placeBlock "s1" 1 2 "trap").2 = some ⟨"s1", 1, 2, "trap"⟩ := by
  decide

/-- C2 amended: `placeBlock` performs no occupancy check and no
type-dependent scoring — for every state (occupied cell or not) and
every block type it appends the new block to the block list, adds a
flat 5 to the placer's score, and returns the placement event. -/
theorem placeBlock_always_appends :
    ∀ (gs : GameState) (pid : String) (x y : Int) (ty : String) (p : PlayerState),
      mapGet gs.players pid = some p →
      (gs.placeBlock pid x y ty).1.blocks = gs.blocks ++ [⟨x, y, ty, pid⟩] ∧
      mapGet (gs.placeBlock pid x y ty).1.players pid =
        some { p with score := p.score + 5 } ∧
      (gs.placeBlock pid x y ty).2 = some ⟨pid, x, y, ty⟩ := by
  intro gs pid x y ty p hp
  refine ⟨?_, ?_, ?_⟩ <;> simp [GameState.placeBlock, hp, mapGet_mapSet_self]

/-- Witness for the amended C2 at the concrete occupied-cell state. -/
theorem placeBlock_always_appends_witness :
    (gsC2.placeBlock "s1" 1 2 "floor").1.blocks =
      gsC2.blocks ++ [⟨1, 2, "floor", "s1"⟩] ∧
    mapGet (gsC2.placeBlock "s1" 1 2 "floor").1.players "s1" =
      some ⟨"s1", "alice", Team.red, 5, 0, 0, 0, 0, 100, []⟩ ∧
    (gsC2.placeBlock "s1" 1 2 "floor").2 = some ⟨"s1", 1, 2, "floor"⟩ :=
  placeBlock_always_appends gsC2 "s1" 1 2 "floor"
    ⟨"s1", "alice", Team.red, 0, 0, 0, 0, 0, 100, []⟩ (by decide)

/-! ### C6 — room capacity -/

/-- C6: part 1 — `addPlayer` on a room at (or beyond) capacity fails
with the capacity error `Room is full`, performing no mutation (the
roster is untouched since the model returns no room). Part 2 — a
successful `addPlayer` grows the roster by at most one, so a count
within capacity stays within capacity. Part 3 — rooms are built with
capacity 16. Part 4 — after any sequence of `addPlayer` calls on a
fresh room (failed calls leaving the room unchanged), the player count
never exceeds 16: in particular the 17th call onto a full room fails. -/
theorem addPlayer_capacity :
    (∀ (room : GameRoom) (id u : String) (rx ry : Int) (g : Nat),
      room.playerCount ≥ room.maxPlayers →
      room.addPlayer id u rx ry g = Except.error "Room is full") ∧
    (∀ (room room1 : GameRoom) (id u : String) (rx ry : Int) (g : Nat) (p : PlayerState),
      room.playerCount ≤ room.maxPlayers →
      room.addPlayer id u rx ry g = Except.ok (room1, p) →
      room1.playerCount ≤ room.maxPlayers ∧ room1.maxPlayers = room.maxPlayers) ∧
    (∀ (c : String) (b : Bool), (GameRoom.make c b).maxPlayers = 16) ∧
    (∀ (c : String) (b : Bool) (reqs : List JoinReq),
      (joinFold (GameRoom.make c b) reqs).playerCount ≤ 16) := by
  have hfull : ∀ (room : GameRoom) (id u : String) (rx ry : Int) (g : Nat),
      room.playerCount ≥ room.maxPlayers →
      room.addPlayer id u rx ry g = Except.error "Room is full" := by
    intro room id u rx ry g h
    simp [GameRoom.addPlayer, GameRoom.playerCount] at *
    omega
  have hok : ∀ (room room1 : GameRoom) (id u : String) (rx ry : Int) (g : Nat) (p : PlayerState),
      room.playerCount ≤ room.maxPlayers →
      room.addPlayer id u rx ry g = Except.ok (room1, p) →
      room1.playerCount ≤ room.maxPlayers ∧ room1.maxPlayers = room.maxPlayers := by
    intro room room1 id u rx ry g p hle hok
    by_cases hge : room.players.length ≥ room.maxPlayers
    · simp [GameRoom.addPlayer, hge] at hok
    · simp [GameRoom.addPlayer, hge] at hok
      have hlen := mapSet_length_le room.players id
        ⟨id, if u = "" then "Guest" ++ toString g else u, room.assignTeam,
          0, rx, ry, 0, 0, 100, []⟩
      constructor
      · rw [← hok.1]
        simp [GameRoom.playerCount]
        omega
      · rw [← hok.1]
  refine ⟨hfull, hok, fun c b => rfl, ?_⟩
  intro c b reqs
  suffices h : ∀ (reqs : List JoinReq) (room : GameRoom),
      room.maxPlayers = 16 → room.playerCount ≤ 16 →
      (joinFold room reqs).playerCount ≤ 16 by
    exact h reqs (GameRoom.make c b) rfl (by simp [GameRoom.make, GameRoom.playerCount])
  intro reqs
  induction reqs with
  | nil => intro room hmax hle; simpa [joinFold] using hle
  | cons j rest ih =>
    intro room hmax hle
    cases hcall : room.addPlayer j.id j.username j.rx j.ry j.guestNum with
    | ok pr =>
      have h2 := hok room pr.1 j.id j.username j.rx j.ry j.guestNum pr.2
        (by omega) (by rw [hcall])
      simp only [joinFold, hcall]
      exact ih pr.1 (by omega) (by omega)
    | error e =>
      simp only [joinFold, hcall]
      exact ih room hmax hle

/-- A synthetic player record used to build concrete full rooms. -/
def mkPlayer (i : Nat) : PlayerState :=
  ⟨toString i, toString i, Team.red, 0, 0, 0, 0, 0, 100, []⟩

/-- A concrete room at capacity: 16 players, capacity 16. -/
def fullRoom : GameRoom :=
  { code := "FULLRM"
    isPrivate := false
    players := (List.range 16).map fun i => (toString i, mkPlayer i)
    gameState := none
    gameStarted := false
    currentRound := 0
    maxPlayers := 16 }

/-- Witness for C6: the concrete 16-player room rejects a 17th player
with the capacity error. -/
theorem addPlayer_capacity_witness :
    fullRoom.addPlayer "x17" "carol" 0 0 0 = Except.error "Room is full" :=
  addPlayer_capacity.1 fullRoom "x17" "carol" 0 0 0 (by decide)

/-! ### C7 — team balance -/

/-- C7 counterexample: the claim quantifies over any sequence of joins,
but a join that reuses a live connection id replaces that player via
`Map.set` with a freshly computed team, which can flip a blue player to
red. After joins `a`, `b`, `b` the room holds 2 red and 0 blue players,
so `abs(redCount - blueCount) = 2 > 1`. -/
theorem teamBalance_counterexample :
    teamCount (joinFold (GameRoom.make "RM0003" false)
      [⟨"a", "alice", 0, 0, 0⟩, ⟨"b", "bob", 0, 0, 0⟩, ⟨"b", "bob", 0, 0, 0⟩]).players
      Team.red = 2 ∧
    teamCount (joinFold (GameRoom.make "RM0003" false)
      [⟨"a", "alice", 0, 0, 0⟩, ⟨"b", "bob", 0, 0, 0⟩, ⟨"b", "bob", 0, 0, 0⟩]).players
      Team.blue = 0 := by
  decide

theorem teamCount_append (l : List (String × PlayerState)) (k : String)
    (p : PlayerState) (t : Team) :
    teamCount (l ++ [(k, p)]) t =
      teamCount l t + (if p.team = t then 1 else 0) := by
  by_cases h : p.team = t <;> simp [teamCount, List.filter_append, h]

/-- The balance invariant kernel for C7: any sequence of `addPlayer`
calls whose connection ids are pairwise distinct and fresh for the room
keeps `redCount` and `blueCount` within 1 of each other. -/
theorem joinFold_balance_core :
    ∀ (reqs : List JoinReq) (room : GameRoom),
      (∀ j ∈ reqs, mapGet room.players j.id = none) →
      (reqs.map JoinReq.id).Nodup →
      teamCount room.players Team.red ≤ teamCount room.players Team.blue + 1 →
      teamCount room.players Team.blue ≤ teamCount room.players Team.red + 1 →
      teamCount (joinFold room reqs).players Team.red ≤
        teamCount (joinFold room reqs).players Team.blue + 1 ∧
      teamCount (joinFold room reqs).players Team.blue ≤
        teamCount (joinFold room reqs).players Team.red + 1 := by
  intro reqs
  induction reqs with
  | nil =>
    intro room _ _ h1 h2
    exact ⟨h1, h2⟩
  | cons j rest ih =>
    intro room hfresh hnd h1 h2
    have hjid : mapGet room.players j.id = none := hfresh j (List.mem_cons_self ..)
    have hnd1 : (∀ x ∈ rest, ¬x.id = j.id) ∧ (List.map JoinReq.id rest).Nodup := by
      simpa using hnd
    by_cases hge : room.players.length ≥ room.maxPlayers
    · simp only [joinFold, GameRoom.addPlayer, if_pos hge]
      exact ih room (fun j2 hj2 => hfresh j2 (List.mem_cons_of_mem _ hj2)) hnd1.2 h1 h2
    · simp only [joinFold, GameRoom.addPlayer, if_neg hge]
      apply ih
      · intro j2 hj2
        rw [mapGet_mapSet_ne _ _ _ _ (hnd1.1 j2 hj2)]
        exact hfresh j2 (List.mem_cons_of_mem _ hj2)
      · exact hnd1.2
      · rw [mapSet_of_get_none _ _ _ hjid, teamCount_append, teamCount_append]
        simp only [GameRoom.assignTeam]
        by_cases hrb : teamCount room.players Team.red ≤ teamCount room.players Team.blue <;>
          (simp [hrb]; try omega)
      · rw [mapSet_of_get_none _ _ _ hjid, teamCount_append, teamCount_append]
        simp only [GameRoom.assignTeam]
        by_cases hrb : teamCount room.players Team.red ≤ teamCount room.players Team.blue <;>
          (simp [hrb]; try omega)

/-- C7 amended: restricted to join sequences whose connection ids are
pairwise distinct (fresh connections, the scenario the claim describes),
the balance invariant holds: after any such sequence into a fresh room
`abs(redCount - blueCount) ≤ 1` (part 1). `assignTeam` always picks a
team with fewer-or-equal current members, ties going to red: whenever
`redCount ≤ blueCount` it returns red (part 2), and whenever
`blueCount < redCount` it returns blue (part 3); it recomputes the
tallies from current membership on every call. -/
theorem teamBalance_distinct_ids :
    (∀ (c : String) (b : Bool) (reqs : List JoinReq),
      (reqs.map JoinReq.id).Nodup →
      ((teamCount (joinFold (GameRoom.make c b) reqs).players Team.red : Int) -
        (teamCount (joinFold (GameRoom.make c b) reqs).players Team.blue : Int)).natAbs ≤ 1) ∧
    (∀ room : GameRoom,
      teamCount room.players Team.red ≤ teamCount room.players Team.blue →
      room.assignTeam = Team.red) ∧
    (∀ room : GameRoom,
      teamCount room.players Team.blue < teamCount room.players Team.red →
      room.assignTeam = Team.blue) := by
  refine ⟨?_, ?_, ?_⟩
  · intro c b reqs hnd
    have h := joinFold_balance_core reqs (GameRoom.make c b)
      (fun j _ => rfl) hnd (by simp [GameRoom.make, teamCount]) (by simp [GameRoom.make, teamCount])
    omega
  · intro room h
    simp [GameRoom.assignTeam, h]
  · intro room h
    have hnot : ¬teamCount room.players Team.red ≤ teamCount room.players Team.blue := by
      omega
    simp [GameRoom.assignTeam, hnot]

/-- Witness for the amended C7: three distinct-id joins leave the teams
within one of each other. -/
theorem teamBalance_distinct_ids_witness :
    ((teamCount (joinFold (GameRoom.make "RM0004" false)
        [⟨"a", "alice", 0, 0, 0⟩, ⟨"b", "bob", 0, 0, 0⟩, ⟨"c", "carol", 0, 0, 0⟩]).players
        Team.red : Int) -
      (teamCount (joinFold (GameRoom.make "RM0004" false)
        [⟨"a", "alice", 0, 0, 0⟩, ⟨"b", "bob", 0, 0, 0⟩, ⟨"c", "carol", 0, 0, 0⟩]).players
        Team.blue : Int)).natAbs ≤ 1 :=
  teamBalance_distinct_ids.1 "RM0004" false
    [⟨"a", "alice", 0, 0, 0⟩, ⟨"b", "bob", 0, 0, 0⟩, ⟨"c", "carol", 0, 0, 0⟩] (by decide)

/-! ### C4 — room codes -/

/-- A directory whose single live room has code `AAAAAA`. -/
def dirA : List (String × GameRoom) :=
  [("AAAAAA", GameRoom.make "AAAAAA" false)]

/-- C4 counterexample: with the random oracle constantly 0 the
generated code is `AAAAAA`, which is already the code of a currently
live room, and `createRoom` performs no collision retry: it hands out
that very code and its `rooms.set` replaces the existing live room (the
old public room is gone, a fresh private one sits under its code). The
claim's uniqueness-at-insertion is violated. -/
theorem roomCode_collision_counterexample :
    roomCodeString (fun _ => (0 : Fin 36)) = "AAAAAA" ∧
    (mapGet dirA (roomCodeString (fun _ => (0 : Fin 36)))).isSome = true ∧
    (createRoomHandler dirA (fun _ => (0 : Fin 36)) "s9" "u" 0 0 0).2 = "AAAAAA" ∧
    mapGet (createRoomHandler dirA (fun _ => (0 : Fin 36)) "s9" "u" 0 0 0).1 "AAAAAA" ≠
      some (GameRoom.make "AAAAAA" false) := by
  decide

/-- C4 amended: every generated room code is a 6-character string over
`A–Z0–9`, and `createRoom` inserts the new room under that code — but
uniqueness among live rooms is not checked (no collision retry), so only
the format part of the claim holds. -/
theorem roomCode_format :
    ∀ r : Fin 6 → Fin 36,
      (generateRoomCode r).length = 6 ∧
      (∀ ch ∈ generateRoomCode r, ch ∈ roomCodeChars) ∧
      (∀ (rooms : List (String × GameRoom)) (sid u : String) (rx ry : Int) (g : Nat),
        (mapGet (createRoomHandler rooms r sid u rx ry g).1 (roomCodeString r)).isSome = true) := by
  intro r
  refine ⟨by simp [generateRoomCode], ?_, ?_⟩
  · intro ch hch
    simp only [generateRoomCode, List.mem_map] at hch
    obtain ⟨i, _, hi⟩ := hch
    rw [← hi]
    exact List.get_mem ..
  · intro rooms sid u rx ry g
    simp [createRoomHandler, GameRoom.addPlayer, GameRoom.make, mapGet_mapSet_self]

/-- Witness for the amended C4 at the constant-zero oracle. -/
theorem roomCode_format_witness :
    (generateRoomCode (fun _ => (0 : Fin 36))).length = 6 ∧
    'A' ∈ generateRoomCode (fun _ => (0 : Fin 36)) ∧ 'A' ∈ roomCodeChars :=
  ⟨(roomCode_format (fun _ => (0 : Fin 36))).1,
    by decide,
    (roomCode_format (fun _ => (0 : Fin 36))).2.1 'A' (by decide)⟩

/-! ### C8 — round timeline determinism -/

/-- C8: the flattened `startGame` timeline fires exactly three
`roundStart` events — race at t=0, build at t=120000+3000=123000ms,
battle at t=303000+3000=306000ms — and exactly one `gameEnd`, at
t=456000ms, each `roundStart` carrying the new mode's duration. -/
theorem roundTimeline_deterministic :
    startGameSchedule.filter (fun e => isRoundStart e.2) =
      [(0, TimelineAction.emitRoundStart Mode.race 120),
       (123000, TimelineAction.emitRoundStart Mode.build 180),
       (306000, TimelineAction.emitRoundStart Mode.battle 150)] ∧
    startGameSchedule.filter (fun e => isGameEnd e.2) =
      [(456000, TimelineAction.emitGameEnd)] ∧
    120000 + 3000 = 123000 ∧ 303000 + 3000 = 306000 := by
  decide

/-! ### C1 — mode transition at phase boundaries -/

/-- A deterministic stand-in for the `Math.random()` coin positions. -/
def coinPosZero : Nat → Int × Int :=
  fun i => ((i : Int) * 40, 0)

/-- A concrete started two-player room. -/
def startedC1 : GameRoom :=
  (joinFold (GameRoom.make "RM0001" false)
    [⟨"a", "alice", 0, 0, 0⟩, ⟨"b", "bob", 0, 0, 0⟩]).startGame coinPosZero

/-- C1 (code bug): the timeline emits `roundStart` with mode `build` at
the race→build boundary (t=123000), but no timeline callback ever calls
`setMode` or otherwise constructs the next ModeState — so after the
boundary the room's simulation state still has `currentMode = race` and
its broadcast snapshot still carries mode `race`, contradicting the
event just emitted. The last conjunct shows the transition function the
claim describes does exist in the code (`GameState.setMode` would yield
mode `build`) — it is simply never invoked. -/
theorem modeTransition_never_applied :
    ((123000 : Nat), TimelineAction.emitRoundStart Mode.build 180) ∈ startGameSchedule ∧
    ((runScheduleUpTo startedC1 123000).gameState.map
      (fun gs => gs.currentMode)) = some Mode.race ∧
    ((runScheduleUpTo startedC1 123000).gameState.map
      (fun gs => gs.getState.mode)) = some Mode.race ∧
    (startedC1.gameState.map
      (fun gs => (gs.setMode Mode.build coinPosZero).currentMode)) = some Mode.build := by
  decide

/-! ### C9 — room teardown -/

/-- C9 amended: when a disconnect removes the last player of its room,
the room is deleted from the directory and every subsequent tick of the
room's broadcast interval emits nothing and clears itself (so no further
`gameStateUpdate` is observed) — but the room's round-timeline timeouts
are NOT cancelled: the pending-timeout set is untouched. -/
theorem lastPlayerRemoval_stops_ticks :
    ∀ (st : ServerState) (sid code : String) (room : GameRoom),
      mapGet st.playerRooms sid = some code →
      mapGet st.rooms code = some room →
      (room.removePlayer sid).playerCount = 0 →
      mapGet (disconnectHandler st sid).rooms code = none ∧
      (∀ rm : GameRoom,
        gameLoopTick (disconnectHandler st sid).rooms code rm = (none, false)) ∧
      (disconnectHandler st sid).pendingTimeouts = st.pendingTimeouts := by
  intro st sid code room hpr hr hempty
  have hst : disconnectHandler st sid =
      { st with
        rooms := mapDelete st.rooms code
        playerRooms := mapDelete st.playerRooms sid } := by
    simp [disconnectHandler, hpr, hr, hempty]
  rw [hst]
  refine ⟨mapGet_mapDelete_self .., ?_, rfl⟩
  intro rm
  simp [gameLoopTick, mapGet_mapDelete_self]

/-- A concrete started room from which one of the two players has
already disconnected, leaving `a` the last member. -/
def roomC9 : GameRoom :=
  ((joinFold (GameRoom.make "RM0002" false)
    [⟨"a", "alice", 0, 0, 0⟩, ⟨"b", "bob", 0, 0, 0⟩]).startGame coinPosZero).removePlayer "b"

/-- A concrete server state holding that room, its session-router entry
and its pending round-timeline timeouts. -/
def stC9 : ServerState :=
  { rooms := [("RM0002", roomC9)]
    playerRooms := [("a", "RM0002")]
    pendingTimeouts := startGameSchedule.map fun e => ("RM0002", e.1, e.2) }

/-- C9 counterexample: disconnecting the last player deletes the room,
yet "cancels its timers" is false — the pending round-timeline timeouts
are exactly what they were before the removal; in particular the
456000ms `gameEnd` timer is still set to fire into the deleted room
(the source has no `clearTimeout` at all). -/
theorem lastPlayerRemoval_timers_counterexample :
    mapGet (disconnectHandler stC9 "a").rooms "RM0002" = none ∧
    (disconnectHandler stC9 "a").pendingTimeouts = stC9.pendingTimeouts ∧
    ("RM0002", (456000 : Nat), TimelineAction.emitGameEnd) ∈
      (disconnectHandler stC9 "a").pendingTimeouts := by
  decide

/-- Witness for the amended C9 at the concrete server state. -/
theorem lastPlayerRemoval_stops_ticks_witness :
    mapGet (disconnectHandler stC9 "a").rooms "RM0002" = none ∧
    (∀ rm : GameRoom,
      gameLoopTick (disconnectHandler stC9 "a").rooms "RM0002" rm = (none, false)) ∧
    (disconnectHandler stC9 "a").pendingTimeouts = stC9.pendingTimeouts :=
  lastPlayerRemoval_stops_ticks stC9 "a" "RM0002" roomC9
    (by decide) (by decide) (by decide)

/-! ### C3 — projectile hits, health clamping, kill scoring -/

/-- Concrete battle state for the C3 counterexample: one blue player
with health 25 at the origin, and two red projectiles that will both be
within the hit radius after the step (the trig oracles return 0, so the
projectiles stay at (5,5)). -/
def gsC3 : GameState :=
  { players := [("v", ⟨"v", "vic", Team.blue, 0, 0, 0, 0, 0, 25, []⟩)]
    currentMode := Mode.battle
    teamScores := ⟨0, 0⟩
    coins := []
    blocks := []
    projectiles := [⟨1, "a", Team.red, 5, 5, 0, 10, 25⟩,
                    ⟨2, "a", Team.red, 5, 5, 0, 10, 25⟩] }

/-- C3 counterexample: the state holds a single opposing player, so at
most one elimination is possible, and one simulation step does
eliminate that player exactly once (health 25 → 0). Yet the red team
score rises by 20, not 10: the second projectile hits the
already-eliminated (health 0) player, `0 - 25 ≤ 0` re-triggers the kill
branch, and another 10 is awarded. "Exactly 10 exactly once per
elimination" is false on the code. -/
theorem projectileScoring_counterexample :
    (GameState.update (fun _ => 0) (fun _ => 0) 0 gsC3).teamScores.red = 20 ∧
    (GameState.update (fun _ => 0) (fun _ => 0) 0 gsC3).players =
      [("v", ⟨"v", "vic", Team.blue, 0, 0, 0, 0, 0, 0, []⟩)] ∧
    (GameState.update (fun _ => 0) (fun _ => 0) 0 gsC3).projectiles = [] := by
  decide

theorem hitPlayers_health_nonneg (proj : Projectile) :
    ∀ (ps : List (String × PlayerState)) (ts : TeamScores),
      (∀ e ∈ ps, 0 ≤ e.2.health) →
      ∀ e ∈ (hitPlayers proj ps ts).1, 0 ≤ e.2.health := by
  intro ps
  induction ps with
  | nil =>
    intro ts _
    simp [hitPlayers]
  | cons e rest ih =>
    intro ts h
    have hrest : ∀ e2 ∈ rest, 0 ≤ e2.2.health :=
      fun e2 he2 => h e2 (List.mem_cons_of_mem _ he2)
    by_cases hc : e.2.id ≠ proj.owner ∧ e.2.team ≠ proj.team ∧
        distSq e.2.x e.2.y proj.x proj.y < 900
    · simp only [hitPlayers, if_pos hc]
      intro e2 he2
      rcases List.mem_cons.mp he2 with he2 | he2
      · subst he2
        by_cases hl : e.2.health - proj.damage ≤ 0 <;> (simp [hl]; try omega)
      · exact ih _ hrest e2 he2
    · simp only [hitPlayers, if_neg hc]
      intro e2 he2
      rcases List.mem_cons.mp he2 with he2 | he2
      · subst he2
        exact h e (List.mem_cons_self ..)
      · exact ih _ hrest e2 he2

theorem stepProjectiles_health_nonneg (cosF sinF : Int → Int) :
    ∀ (projs : List Projectile) (ps : List (String × PlayerState)) (ts : TeamScores),
      (∀ e ∈ ps, 0 ≤ e.2.health) →
      ∀ e ∈ (stepProjectiles cosF sinF projs ps ts).2.1, 0 ≤ e.2.health := by
  intro projs
  induction projs with
  | nil =>
    intro ps ts h
    simpa [stepProjectiles] using h
  | cons proj rest ih =>
    intro ps ts h
    simp only [stepProjectiles]
    intro e he
    exact ih _ _ (hitPlayers_health_nonneg _ _ _ h) e he

/-- C3 amended. Part 1: health can never become negative — a hit
subtracts the damage but clamps at zero, so a step on a state with
nonnegative healths yields nonnegative healths. Part 2 (stated for a
state with a single projectile and a single opposing player): when the
moved projectile lands within distance 30 of the player, the projectile
is removed, the player's health becomes `max (health - damage) 0`, and
the projectile team's score rises by 10 exactly when the hit is lethal
(resulting clamped health 0) — NOT once per elimination: the score
branch fires on every lethal-looking hit, including hits on a player
already at health 0 (see the counterexample). When the projectile
misses, nothing changes except projectile movement and out-of-bounds
removal. -/
theorem projectileStep_amended :
    (∀ (cosF sinF : Int → Int) (now : Nat) (gs : GameState),
      (∀ e ∈ gs.players, 0 ≤ e.2.health) →
      ∀ e ∈ (GameState.update cosF sinF now gs).players, 0 ≤ e.2.health) ∧
    (∀ (cosF sinF : Int → Int) (now : Nat) (gs : GameState)
      (k : String) (p : PlayerState) (proj : Projectile),
      gs.players = [(k, p)] → gs.projectiles = [proj] →
      p.id ≠ proj.owner → p.team ≠ proj.team →
      (distSq p.x p.y (proj.x + cosF proj.angle * proj.speed)
          (proj.y + sinF proj.angle * proj.speed) < 900 →
        (GameState.update cosF sinF now gs).projectiles = [] ∧
        (GameState.update cosF sinF now gs).players =
          [(k, { p with
              health := max (p.health - proj.damage) 0
              powerUps := p.powerUps.filter fun q => q.endTime > now })] ∧
        (GameState.update cosF sinF now gs).teamScores =
          (if p.health - proj.damage ≤ 0
            then gs.teamScores.add proj.team 10 else gs.teamScores)) ∧
      (¬distSq p.x p.y (proj.x + cosF proj.angle * proj.speed)
          (proj.y + sinF proj.angle * proj.speed) < 900 →
        (GameState.update cosF sinF now gs).players =
          [(k, { p with powerUps := p.powerUps.filter fun q => q.endTime > now })] ∧
        (GameState.update cosF sinF now gs).teamScores = gs.teamScores ∧
        (GameState.update cosF sinF now gs).projectiles =
          (if proj.x + cosF proj.angle * proj.speed > 0 ∧
              proj.x + cosF proj.angle * proj.speed < 1000 ∧
              proj.y + sinF proj.angle * proj.speed > 0 ∧
              proj.y + sinF proj.angle * proj.speed < 800
            then [{ proj with
                x := proj.x + cosF proj.angle * proj.speed
                y := proj.y + sinF proj.angle * proj.speed }]
            else []))) := by
  constructor
  · intro cosF sinF now gs h e he
    simp only [GameState.update, filterPowerUps, List.mem_map] at he
    obtain ⟨e0, he0, hee⟩ := he
    rw [← hee]
    exact stepProjectiles_health_nonneg cosF sinF _ _ _ h e0 he0
  · intro cosF sinF now gs k p proj hps hpr hown hteam
    have hcond : (p.id ≠ proj.owner ∧ p.team ≠ proj.team ∧
        distSq p.x p.y (proj.x + cosF proj.angle * proj.speed)
          (proj.y + sinF proj.angle * proj.speed) < 900) ↔
        distSq p.x p.y (proj.x + cosF proj.angle * proj.speed)
          (proj.y + sinF proj.angle * proj.speed) < 900 := by
      constructor
      · exact fun h => h.2.2
      · exact fun h => ⟨hown, hteam, h⟩
    constructor
    · intro hdist
      by_cases hl : p.health - proj.damage ≤ 0
      · have hmax : max (p.health - proj.damage) 0 = 0 := by omega
        simp [GameState.update, hps, hpr, stepProjectiles, hitPlayers,
          hown, hteam, hdist, hl, filterPowerUps, hmax]
      · have hmax : max (p.health - proj.damage) 0 = p.health - proj.damage := by omega
        simp [GameState.update, hps, hpr, stepProjectiles, hitPlayers,
          hown, hteam, hdist, hl, filterPowerUps, hmax]
    · intro hdist
      simp [GameState.update, hps, hpr, stepProjectiles, hitPlayers,
        hdist, filterPowerUps]

/-- Concrete battle state for the C3 witness: one blue player at full
health and one red projectile that will hit non-lethally. -/
def pW3 : PlayerState := ⟨"v", "vic", Team.blue, 0, 0, 0, 0, 0, 100, []⟩

def projW3 : Projectile := ⟨1, "a", Team.red, 5, 5, 0, 10, 25⟩

def gsW3 : GameState :=
  { players := [("v", pW3)]
    currentMode := Mode.battle
    teamScores := ⟨0, 0⟩
    coins := []
    blocks := []
    projectiles := [projW3] }

/-- Witness for the amended C3: a non-lethal hit removes the projectile,
clamps nothing (health 100 → 75 ≥ 0) and leaves the team scores alone. -/
theorem projectileStep_amended_witness :
    (GameState.update (fun _ => 0) (fun _ => 0) 0 gsW3).projectiles = [] ∧
    (GameState.update (fun _ => 0) (fun _ => 0) 0 gsW3).players =
      [("v", { pW3 with
          health := max (pW3.health - projW3.damage) 0
          powerUps := pW3.powerUps.filter fun q => q.endTime > 0 })] ∧
    (GameState.update (fun _ => 0) (fun _ => 0) 0 gsW3).teamScores =
      (if pW3.health - projW3.damage ≤ 0
        then gsW3.teamScores.add projW3.team 10 else gsW3.teamScores) :=
  (projectileStep_amended.2 (fun _ => 0) (fun _ => 0) 0 gsW3 "v" pW3 projW3
    rfl rfl (by decide) (by decide)).1 (by decide)

/-! ### C10 — proximity coin collection on race-mode input -/

/-- The hit predicate of `checkCoinCollisions`: the coin is uncollected
and within distance 30 of the player's position. -/
def coinHit (px py : Int) (c : Coin) : Bool :=
  decide (c.collected = false ∧ distSq px py c.x c.y < 900)

/-- Characterization of `checkCoinCollisions`: every uncollected coin
within the hit radius of the player's position becomes collected (the
others are untouched), and the player's score rises by 10 per such
coin. -/
theorem checkCoinCollisions_spec :
    ∀ (coins : List Coin) (p : PlayerState),
      (checkCoinCollisions coins p).1 =
        coins.map (fun c =>
          if coinHit p.x p.y c then { c with collected := true } else c) ∧
      (checkCoinCollisions coins p).2 =
        { p with score :=
            p.score + 10 * ((coins.filter (coinHit p.x p.y)).length : Int) } := by
  intro coins
  induction coins with
  | nil =>
    intro p
    simp [checkCoinCollisions]
  | cons c rest ih =>
    intro p
    by_cases hc : c.collected = false ∧ distSq p.x p.y c.x c.y < 900
    · have hb : coinHit p.x p.y c = true := by simp [coinHit, hc.1, hc.2]
      have ihm := ih { p with score := p.score + 10 }
      simp only [checkCoinCollisions, if_pos hc]
      constructor
      · rw [ihm.1]
        simp [hb]
      · rw [ihm.2]
        simp only [List.filter_cons, hb, if_pos]
        simp
        omega
    · have hb : coinHit p.x p.y c = false := by
        simp only [coinHit, decide_eq_false_iff_not]
        exact hc
      have ihm := ih p
      simp only [checkCoinCollisions, if_neg hc]
      constructor
      · rw [ihm.1]
        simp [hb]
      · rw [ihm.2]
        simp [List.filter_cons, hb]

/-- C10: in race mode, every `playerInput` position update also runs
proximity collection — after the update, exactly the previously
uncollected coins within distance 30 of the player's NEW position are
marked collected, the player's score rose by 10 for each of them (so a
single movement can collect several coins, with no `collectCoin` action
involved), and blocks/team scores are untouched. -/
theorem raceInput_collects_proximity :
    ∀ (gs : GameState) (pid : String) (inp : PlayerInput) (p : PlayerState),
      mapGet gs.players pid = some p →
      gs.currentMode = Mode.race →
      (gs.updatePlayerInput pid inp).coins =
        gs.coins.map (fun c =>
          if coinHit (applyInput p inp).x (applyInput p inp).y c
          then { c with collected := true } else c) ∧
      mapGet (gs.updatePlayerInput pid inp).players pid =
        some { applyInput p inp with
          score := p.score + 10 *
            ((gs.coins.filter
              (coinHit (applyInput p inp).x (applyInput p inp).y)).length : Int) } ∧
      (gs.updatePlayerInput pid inp).blocks = gs.blocks ∧
      (gs.updatePlayerInput pid inp).teamScores = gs.teamScores := by
  intro gs pid inp p hp hm
  have hs := checkCoinCollisions_spec gs.coins (applyInput p inp)
  simp only [applyInput] at hs
  refine ⟨?_, ?_, ?_, ?_⟩ <;>
    simp [GameState.updatePlayerInput, applyInput, hp, hm, hs.1, hs.2, mapGet_mapSet_self]

/-- Concrete race state for the C10 witness: player `s1` at the origin,
three uncollected coins of which two are within distance 30 of the
input's target position (100, 0). -/
def pW10 : PlayerState := ⟨"s1", "ann", Team.red, 0, 0, 0, 0, 0, 100, []⟩

def gsW10 : GameState :=
  { players := [("s1", pW10)]
    currentMode := Mode.race
    teamScores := ⟨0, 0⟩
    coins := [⟨0, 105, 0, false⟩, ⟨1, 100, 10, false⟩, ⟨2, 500, 500, false⟩]
    blocks := []
    projectiles := [] }

def inpW10 : PlayerInput := ⟨some 100, some 0, none, none⟩

/-- Witness for C10: one movement collects the two nearby coins at once,
for a score of exactly 20, with no action dispatched. -/
theorem raceInput_collects_proximity_witness :
    (gsW10.updatePlayerInput "s1" inpW10).coins =
      gsW10.coins.map (fun c =>
        if coinHit (applyInput pW10 inpW10).x (applyInput pW10 inpW10).y c
        then { c with collected := true } else c) ∧
    mapGet (gsW10.updatePlayerInput "s1" inpW10).players "s1" =
      some { applyInput pW10 inpW10 with
        score := pW10.score + 10 *
          ((gsW10.coins.filter
            (coinHit (applyInput pW10 inpW10).x (applyInput pW10 inpW10).y)).length : Int) } ∧
    mapGet (gsW10.updatePlayerInput "s1" inpW10).players "s1" =
      some ⟨"s1", "ann", Team.red, 20, 100, 0, 0, 0, 100, []⟩ := by
  have h := raceInput_collects_proximity gsW10 "s1" inpW10 pW10 (by decide) rfl
  exact ⟨h.1, h.2.1, by decide⟩

end PartyGame
